import Mathlib

/-!
Verification of the flang semantic front-end (typed AST layer and semantic
analyzer) against its natural-language specification.

The definitions below are a shallow embedding of the C++ source:

* `src/lib/AST/ASTContext.cpp` — type interning (`getCharacterBuiltinType`,
  `getPointerType`, `getArrayType`) and the diagnostic format-string
  machinery (`ScanFormat`, `HandleSelectModifier`, `FormatDiagnostic`).
* `src/unnamed/part_000` (Sema.cpp) — the semantic-analyzer actions
  (`ActOnEntityDecl`, `ActOnImplicitEntityDecl`, `ActOnPARAMETERPair`,
  `ActOnIMPLICIT`, `ActOnEndMainProgram`, `PushDeclContext`,
  `PopDeclContext`).
* `src/include/flang/AST/Expr.h` — `MultiArgumentExpr`.

Raw pointers of the C++ are modelled as `Nat` handles; `IdentifierInfo`
as `String`; source locations as `Nat`.
-/

namespace Flang

/-! ## Type interning (ASTContext.cpp)

`getCharacterBuiltinType`, `getPointerType` and `getArrayType` each keep a
`FoldingSet` keyed by a structural profile and do find-or-insert: a node with
a matching profile is returned if present, otherwise a freshly allocated node
is registered and returned.  The three profile kinds can never collide (they
live in disjoint fold sets, and freshly allocated nodes have distinct
addresses), so we model the three sets as one table keyed by a sum type of
the three profiles, with a shared allocation counter standing for fresh
addresses. -/

/-- A structural profile, as hashed by `CharacterBuiltinType::Profile`
(length and kind selectors, each an optional expression handle),
`PointerType::Profile` (pointee type handle and dimension count) and
`ArrayType::Profile` (element type handle and the list of dimension
expression handles). -/
inductive TypeProfile where
  | char (len : Option Nat) (kind : Option Nat)
  | ptr (ty : Nat) (numDims : Nat)
  | arr (ty : Nat) (dims : List Nat)
deriving DecidableEq, Repr

/-- The interning tables of the `ASTContext`: the registered
(profile, node-handle) pairs and the next fresh node handle. -/
structure InternState where
  table : List (TypeProfile × Nat)
  next : Nat
deriving DecidableEq, Repr

/-- A fresh `ASTContext` holds no interned character/pointer/array types. -/
def InternState.empty : InternState := ⟨[], 0⟩

/-- `FoldingSet::FindNodeOrInsertPos`'s find half: the handle registered for
a profile, if any. -/
def findNode (t : List (TypeProfile × Nat)) (p : TypeProfile) : Option Nat :=
  (t.find? (fun e => e.1 = p)).map (fun e => e.2)

/-- One type-construction request (`getCharacterBuiltinType`,
`getPointerType` or `getArrayType`): return the registered node when the
profile is already present, otherwise allocate a fresh node, register it,
and return it. -/
def internType (s : InternState) (p : TypeProfile) : Nat × InternState :=
  match findNode s.table p with
  | some h => (h, s)
  | none => (s.next, ⟨s.table ++ [(p, s.next)], s.next + 1⟩)

/-- Run a sequence of type-construction requests, collecting the returned
handles. -/
def runIntern : InternState → List TypeProfile → List Nat × InternState
  | s, [] => ([], s)
  | s, p :: ps =>
    let r := internType s p
    let rs := runIntern r.2 ps
    (r.1 :: rs.1, rs.2)

/-- Well-formedness of an interning state: every registered handle is below
the allocation counter, each profile has at most one handle, and each handle
has at most one profile. -/
structure InternWF (s : InternState) : Prop where
  bounded : ∀ p h, (p, h) ∈ s.table → h < s.next
  functional : ∀ p h h', (p, h) ∈ s.table → (p, h') ∈ s.table → h = h'
  injective : ∀ p p' h, (p, h) ∈ s.table → (p', h) ∈ s.table → p = p'

/-! ## Semantic analyzer (Sema.cpp, src/unnamed/part_000)

The `Sema` object holds the current declaration context; declaration
contexts form a tree rooted at the translation unit.  `IdentifierInfo`'s
front-end-token slot (`getFETokenInfo`/`setFETokenInfo`) is the per-name
"most recent declaration" cache the analyzer uses for lookup.  Contexts are
modelled as `Nat` handles into a list (handle 0 is the translation unit);
the front-end-token slots as an association list with most-recent-first
overwrite semantics; diagnostics as an emitted-in-order list. -/

/-- The six builtin base types (`ASTContext::InitBuiltinTypes`).  Each
exists in exactly one instance per translation unit, so structural equality
of this enumeration coincides with handle equality of the singletons. -/
inductive BaseType where
  | integerTy | realTy | doublePrecisionTy | complexTy | characterTy | logicalTy
deriving DecidableEq, Repr

/-- A `QualType` as produced by the actions under verification: one of the
builtin singletons, or null (`TST_struct` in `ActOnTypeName` is an
unfinished `FIXME` and leaves `Result` null). -/
abbrev QualTypeM := Option BaseType

/-- `DeclSpec::TST`, the type-spec of a declaration specifier.  The actions
verified here construct or receive a `DeclSpec` carrying only a type-spec
(no attributes), so the `DeclSpec` is modelled by its `TST` alone and the
`DS.hasAttributes()` branch of `ActOnTypeName` (extended qualifiers, array
specs) is outside the modelled fragment. -/
inductive TST where
  | integer | unspecified | real | doubleprecision | character | logical | complex | struct
deriving DecidableEq, Repr

/-- `Sema::ActOnTypeName` restricted to an attribute-free `DeclSpec`: the
switch on `DS.getTypeSpecType()` (`TST_unspecified` falls through to
real; `TST_struct` is unfinished and leaves the result null). -/
def actOnTypeName : TST → QualTypeM
  | TST.integer => some BaseType.integerTy
  | TST.unspecified => some BaseType.realTy
  | TST.real => some BaseType.realTy
  | TST.doubleprecision => some BaseType.doublePrecisionTy
  | TST.character => some BaseType.characterTy
  | TST.logical => some BaseType.logicalTy
  | TST.complex => some BaseType.complexTy
  | TST.struct => none

/-- A `VarDecl`: its declaration context, source location, name and type.

`isParameter` is modelled from the spec (`Decl.h` is not under `src/`):
"Variables additionally carry attributes derived from specification
statements (parameter-ness, ...)".  `VarDecl::Create(C, DC, Loc, IDInfo, T)`
receives no attribute information — it is the same call for ordinary and
PARAMETER entities — so creation necessarily leaves the flag at its
uniform default, which must be unset (were the default set, every variable
would carry the attribute). -/
structure VarDeclM where
  declContext : Nat
  loc : Nat
  name : String
  type : QualTypeM
  isParameter : Bool
deriving DecidableEq, Repr

/-- The kind of a declaration context (the variants the verified actions
touch). -/
inductive CtxKind where
  | translationUnit | mainProgram | record
deriving DecidableEq, Repr, Inhabited

/-- A declaration context: parent link, kind, name (the
`MainProgramDecl` name; empty when the PROGRAM statement is unnamed) and
its ordered declarations. -/
structure DeclContextM where
  parent : Option Nat
  kind : CtxKind
  name : String
  decls : List VarDeclM
deriving DecidableEq, Repr, Inhabited

/-- Diagnostic severity levels used by the verified actions. -/
inductive DiagLevel where
  | error | note | warning
deriving DecidableEq, Repr

/-- The diagnostic messages emitted by the verified actions (message text
abbreviated to its identity; the name argument is retained). -/
inductive DiagMsg where
  | alreadyDeclared (name : String)
  | previousDeclaration
  | alreadyDefined (name : String)
  | previousDefinition
  | endProgramNameMismatch (progName : String)
deriving DecidableEq, Repr

/-- One emitted diagnostic. -/
structure Diag where
  level : DiagLevel
  loc : Nat
  msg : DiagMsg
deriving DecidableEq, Repr

/-- The analyzer state: the context tree (handle = index, 0 = translation
unit), the current context, the per-name front-end-token slots, and the
diagnostics emitted so far. -/
structure SemaState where
  contexts : List DeclContextM
  curContext : Nat
  feToken : List (String × VarDeclM)
  diags : List Diag
deriving DecidableEq, Repr

/-- A fresh analyzer positioned at the translation unit
(`ActOnTranslationUnit` has pushed the TU context). -/
def SemaState.initial : SemaState :=
  ⟨[⟨none, CtxKind.translationUnit, "", []⟩], 0, [], []⟩

/-- `IDInfo->getFETokenInfo<VarDecl>()`. -/
def lookupFEToken (s : SemaState) (name : String) : Option VarDeclM :=
  (s.feToken.find? (fun e => e.1 = name)).map (fun e => e.2)

/-- `IDInfo->setFETokenInfo(VD)`: overwrite the slot for `name`. -/
def setFEToken (s : SemaState) (name : String) (vd : VarDeclM) : SemaState :=
  { s with feToken := (name, vd) :: s.feToken }

/-- `Diags.ReportError(Loc, Msg)`. -/
def reportError (s : SemaState) (loc : Nat) (m : DiagMsg) : SemaState :=
  { s with diags := s.diags ++ [⟨DiagLevel.error, loc, m⟩] }

/-- `Diags.getClient()->HandleDiagnostic(Diagnostic::Note, Loc, Msg)`. -/
def reportNote (s : SemaState) (loc : Nat) (m : DiagMsg) : SemaState :=
  { s with diags := s.diags ++ [⟨DiagLevel.note, loc, m⟩] }

/-- Dereference a context handle. -/
def getContext (s : SemaState) (c : Nat) : DeclContextM :=
  (s.contexts.get? c).getD default

/-- `CurContext->addDecl(VD)`. -/
def addDeclToCur (s : SemaState) (vd : VarDeclM) : SemaState :=
  match s.contexts.get? s.curContext with
  | some ctx =>
    { s with contexts := s.contexts.set s.curContext { ctx with decls := ctx.decls ++ [vd] } }
  | none => s

/-- `Sema::PopDeclContext`: `CurContext = getContainingDC(CurContext)`,
i.e. the parent.  (The asserts — context imbalance, popping the
translation unit — are hypotheses of the theorems below.)  Note that this
is ALL the function does: no front-end-token slot is restored. -/
def popDeclContext (s : SemaState) : SemaState :=
  { s with curContext := ((s.contexts.get? s.curContext).bind (fun c => c.parent)).getD 0 }

/-- `Sema::ActOnMainProgram`: create a `MainProgramDecl` whose parent is
the translation-unit decl, and push it. -/
def actOnMainProgram (s : SemaState) (name : String) : SemaState :=
  { s with contexts := s.contexts ++ [⟨some 0, CtxKind.mainProgram, name, []⟩],
           curContext := s.contexts.length }

/-- `Sema::ActOnEndMainProgram`: read the program name from the current
context (a `MainProgramDecl`); when it is non-empty and the END statement
carries an identifier with a different name, report an error; in every
case pop the context. -/
def actOnEndMainProgram (s : SemaState) (endName : Option String) (nameLoc : Nat) : SemaState :=
  let progName := (getContext s s.curContext).name
  if progName = "" then popDeclContext s
  else
    match endName with
    | none => popDeclContext s
    | some n =>
      if progName ≠ n then
        popDeclContext (reportError s nameLoc (DiagMsg.endProgramNameMismatch progName))
      else popDeclContext s

/-- The fall-through tail of `Sema::ActOnEntityDecl`: compute the type,
create the `VarDecl` in the current context, add it, store it in the
front-end-token slot, and return it. -/
def entityDeclCreate (s : SemaState) (ds : TST) (idLoc : Nat) (name : String) :
    Option VarDeclM × SemaState :=
  let vd : VarDeclM := ⟨s.curContext, idLoc, name, actOnTypeName ds, false⟩
  (some vd, setFEToken (addDeclToCur s vd) name vd)

/-- `Sema::ActOnEntityDecl`: when the front-end token holds a previous
declaration belonging to the current context, report an error at the new
site with a note at the previous declaration and return null; otherwise
create the declaration. -/
def actOnEntityDecl (s : SemaState) (ds : TST) (idLoc : Nat) (name : String) :
    Option VarDeclM × SemaState :=
  match lookupFEToken s name with
  | some prev =>
    if prev.declContext = s.curContext then
      (none,
        reportNote (reportError s idLoc (DiagMsg.alreadyDeclared name))
          prev.loc DiagMsg.previousDeclaration)
    else entityDeclCreate s ds idLoc name
  | none => entityDeclCreate s ds idLoc name

/-- `Sema::ActOnImplicitEntityDecl`: build a `DeclSpec` whose type-spec is
integer when the upper-cased first letter of the name is in `I..N` and
real otherwise, then delegate to `ActOnEntityDecl`.  (An empty name reads
the C string's NUL terminator.) -/
def actOnImplicitEntityDecl (s : SemaState) (idLoc : Nat) (name : String) :
    Option VarDeclM × SemaState :=
  let letter := (name.toList.headD (Char.ofNat 0)).toUpper
  let ds : TST := if 'I' ≤ letter ∧ letter ≤ 'N' then TST.integer else TST.real
  actOnEntityDecl s ds idLoc name

/-- An `ImplicitStmt` for `IMPLICIT NONE` (`ImplicitStmt::Create(C, Loc,
StmtLabel)`). -/
structure ImplicitStmtM where
  loc : Nat
  isNone : Bool
deriving DecidableEq, Repr

/-- `Sema::ActOnIMPLICIT(C, Loc, StmtLabel)` — the IMPLICIT NONE overload:
it only allocates the statement node; the analyzer state records nothing
about IMPLICIT NONE being in effect. -/
def actOnIMPLICITNone (s : SemaState) (loc : Nat) : SemaState × ImplicitStmtM :=
  (s, ⟨loc, true⟩)

/-- A constant expression as consumed by `ActOnPARAMETERPair`: location and
result type. -/
structure ExprM where
  loc : Nat
  type : QualTypeM
deriving DecidableEq, Repr

/-- `Sema::ActOnPARAMETERPair`: when the front-end token holds any
previous declaration (no declaration-context check here, unlike
`ActOnEntityDecl`), report an error with a note at the previous definition
and return the empty pair; otherwise create a `VarDecl` whose type is the
constant expression's type, add it, store the front-end token, and return
the (name, expression) pair. -/
def actOnPARAMETERPair (s : SemaState) (loc : Nat) (name : String) (ce : ExprM) :
    (Option String × Option ExprM) × SemaState :=
  match lookupFEToken s name with
  | some prev =>
    ((none, none),
      reportNote (reportError s loc (DiagMsg.alreadyDefined name))
        prev.loc DiagMsg.previousDefinition)
  | none =>
    let vd : VarDeclM := ⟨s.curContext, loc, name, ce.type, false⟩
    ((some name, some ce), setFEToken (addDeclToCur s vd) name vd)

/-! ## Diagnostic format strings (Diagnostic.cpp part of src/lib/AST/ASTContext.cpp)

`FormatDiagnostic` expands a format string with `%N` argument slots and
`%modifier{arguments}N` placeholders; `ScanFormat` scans for a separator
while skipping nested brace clauses and escaped characters;
`HandleSelectModifier` picks one alternative of `%select{a|b|c}N`.
Strings are modelled as `List Char`; a scan that runs off the end
(C++ returns `E`) is `none`; paths whose C++ behaviour is an assertion
failure or an out-of-bounds read are also `none`. -/

def openBrace : Char := Char.ofNat 123

def closeBrace : Char := Char.ofNat 125

def pipeChar : Char := '|'

def quoteChar : Char := Char.ofNat 39

/-- `isDigit` from Diagnostic.cpp. -/
def isDigitC (c : Char) : Bool := decide ('0' ≤ c) && decide (c ≤ '9')

/-- `isPunctuation` from Diagnostic.cpp. -/
def isPunctuationC (c : Char) : Bool :=
  c = '.' || c = ',' || c = ';' || c = ':' || c = '-' || c = '!' || c = '?'

def prependScan (p : List Char) (o : Option (List Char × List Char)) :
    Option (List Char × List Char) :=
  o.map (fun pr => (p ++ pr.1, pr.2))

/-- The position of `ScanFormat`'s cursor `I` relative to the function's
control flow: at the top of the outer `for` loop with the current `Depth`;
just after a `%` (the `I++` inside the `%` branch); or inside the inner
format-specifier skip loop (`for (I++; I != E && !isDigit(*I) && *I != '{';
I++)`). -/
inductive ScanMode where
  | normal (depth : Nat)
  | afterPercent (depth : Nat)
  | modifier (depth : Nat)
deriving DecidableEq, Repr

/-- `ScanFormat(I, E, Target)`, one character of the scan per step: scan
for `Target`, skipping nested clauses (`Depth` is raised by a
`%modifier{` opener and lowered by a closing brace) and implicitly
skipping `%`-escaped characters.  `some (pre, rest)` means the target was
found at depth 0 with `pre` the consumed prefix and `rest` beginning at
the target; `none` means the scan ran off the end (C++ returns `E`).  In
`normal` mode the loop head applies: return on a depth-0 target, decrement
the depth on a closing brace at non-zero depth, and enter `afterPercent`
on `%`.  After a `%`, a digit or punctuation character is an escape and is
simply skipped; anything else starts a format specifier whose tail is
skipped until a digit (argument number, depth unchanged) or an opening
brace (depth incremented). -/
def scanAux (target : Char) : List Char → ScanMode → Option (List Char × List Char)
  | [], _ => none
  | c :: rest, ScanMode.normal d =>
    if d = 0 ∧ c = target then some ([], c :: rest)
    else
      let d1 := if d ≠ 0 ∧ c = closeBrace then d - 1 else d
      if c = '%' then prependScan [c] (scanAux target rest (ScanMode.afterPercent d1))
      else prependScan [c] (scanAux target rest (ScanMode.normal d1))
  | c :: rest, ScanMode.afterPercent d =>
    if isDigitC c || isPunctuationC c then
      prependScan [c] (scanAux target rest (ScanMode.normal d))
    else
      prependScan [c] (scanAux target rest (ScanMode.modifier d))
  | c :: rest, ScanMode.modifier d =>
    if c = openBrace then prependScan [c] (scanAux target rest (ScanMode.normal (d + 1)))
    else if isDigitC c then prependScan [c] (scanAux target rest (ScanMode.normal d))
    else prependScan [c] (scanAux target rest (ScanMode.modifier d))

/-- `ScanFormat` from its entry point (`Depth = 0`, at the loop head). -/
def scanFormat (s : List Char) (target : Char) : Option (List Char × List Char) :=
  scanAux target s (ScanMode.normal 0)

/-- The skip loop of `HandleSelectModifier`: skip over `ValNo` `|`
separators (`Argument = NextVal+1`); `none` models the assertion that the
select value exceeds the number of alternatives. -/
def skipAlternatives : Nat → List Char → Option (List Char)
  | 0, arg => some arg
  | n + 1, arg =>
    match scanFormat arg pipeChar with
    | some (_, _ :: rest) => skipAlternatives n rest
    | some (_, []) => none
    | none => none

/-- The slice of the select argument that `HandleSelectModifier` hands to
the recursive `FormatDiagnostic` call: after skipping `ValNo` separators,
everything up to the next `|` (or to the end). -/
def handleSelectSlice (valNo : Nat) (arg : List Char) : Option (List Char) :=
  match skipAlternatives valNo arg with
  | none => none
  | some s =>
    match scanFormat s pipeChar with
    | some (pre, _) => some pre
    | none => some s

/-- Well-formedness of a select alternative with respect to the scanner:
scanning for the `|` separator at depth 0 walks through the alternative
without finding a separator in it and without leaving depth 0 — nested
brace clauses and escapes inside the alternative are skipped, and the
alternative contains no top-level `|`. -/
def PipeNeutral (a : List Char) : Prop :=
  ∀ r, scanAux pipeChar (a ++ r) (ScanMode.normal 0) =
    prependScan a (scanAux pipeChar r (ScanMode.normal 0))

/-- Well-formedness of text inside a brace clause: at any non-zero depth
the scanner walks through it without changing the depth. -/
def NZNeutral (a : List Char) : Prop :=
  ∀ r d, scanAux pipeChar (a ++ r) (ScanMode.normal (d + 1)) =
    prependScan a (scanAux pipeChar r (ScanMode.normal (d + 1)))

/-- The text of a select clause with the given alternatives, `|`-separated
(the `a|b|c` inside `%select{a|b|c}N`). -/
def joinAlternatives : List (List Char) → List Char
  | [] => []
  | [a] => a
  | a :: b :: t => a ++ pipeChar :: joinAlternatives (b :: t)

/-- A formatted diagnostic argument (`DiagnosticsEngine::ArgumentKind`
payloads; `ak_qualtype` is not modelled — printing a `QualType` needs the
external type printer). -/
inductive FmtArg where
  | sint (val : Int)
  | uint (val : Nat)
  | stdStr (chars : List Char)
  | cStr (chars : List Char)
  | identifier (chars : List Char)
deriving DecidableEq, Repr

/-- The `(unsigned)Val` conversions applied to an `ak_sint` argument before
the modifier handlers run (32-bit unsigned wrap-around). -/
def toUnsigned32 (i : Int) : Nat := (i % (2 ^ 32 : Int)).toNat

/-- Decimal rendering of `raw_svector_ostream << Val` for a signed value. -/
def intToChars (i : Int) : List Char := (Int.repr i).toList

/-- Decimal rendering of `raw_svector_ostream << Val` for an unsigned
value. -/
def natToChars (n : Nat) : List Char := (Nat.repr n).toList

/-- `llvm::getOrdinalSuffix` (external LLVM helper used by
`HandleOrdinalModifier`): `st`/`nd`/`rd` except for 11–13 modulo 100. -/
def getOrdinalSuffix (v : Nat) : List Char :=
  if v % 100 = 11 ∨ v % 100 = 12 ∨ v % 100 = 13 then ['t', 'h']
  else match v % 10 with
    | 1 => ['s', 't']
    | 2 => ['n', 'd']
    | 3 => ['r', 'd']
    | _ => ['t', 'h']

/-- `HandleIntegerSModifier`: append `s` unless the value is 1. -/
def handleIntegerSModifier (valNo : Nat) : List Char :=
  if valNo ≠ 1 then ['s'] else []

/-- `HandleOrdinalModifier`: the decimal value followed by its ordinal
suffix (`none` models the `ValNo != 0` assertion). -/
def handleOrdinalModifier (valNo : Nat) : Option (List Char) :=
  if valNo = 0 then none
  else some (natToChars valNo ++ getOrdinalSuffix valNo)

/-- `PluralNumber`: parse a decimal number, advancing the cursor.  The
accumulator wraps like the C++ `unsigned`. -/
def pluralNumber : List Char → Nat → Nat × List Char
  | [], acc => (acc, [])
  | c :: rest, acc =>
    if isDigitC c then pluralNumber rest ((acc * 10 + (c.toNat - '0'.toNat)) % 2 ^ 32)
    else (acc, c :: rest)

/-- `TestPluralRange`: a bare number tests equality; `[low,high]` tests
inclusive membership.  `none` models the syntax assertions / an
out-of-bounds read. -/
def testPluralRange (val : Nat) : List Char → Option (Bool × List Char)
  | [] => none
  | c :: rest =>
    if c ≠ '[' then
      let pr := pluralNumber (c :: rest) 0
      some (decide (pr.1 = val), pr.2)
    else
      let pr := pluralNumber rest 0
      match pr.2 with
      | ',' :: rest2 =>
        let pr2 := pluralNumber rest2 0
        match pr2.2 with
        | ']' :: rest3 => some (decide (pr.1 ≤ val ∧ val ≤ pr2.1), rest3)
        | _ => none
      | _ => none

/-- The or-expression loop of `EvalPluralExpr`: each clause is a range or a
`%number=range` modulo test; clauses are separated by commas.  Running past
the expression end (the C++ would dereference the `:` terminator) is
`none`. -/
def evalPluralLoop (args : Unit) (valNo : Nat) : Nat → List Char → Option Bool
  | 0, _ => none
  | _ + 1, [] => none
  | fuel + 1, c :: rest =>
    if c = '%' then
      let pr := pluralNumber rest 0
      match pr.2 with
      | '=' :: rest2 =>
        match testPluralRange (valNo % pr.1) rest2 with
        | none => none
        | some (true, _) => some true
        | some (false, rem) =>
          match rem.dropWhile (fun x => x != ',') with
          | [] => some false
          | _ :: rest3 => evalPluralLoop args valNo fuel rest3
      | _ => none
    else if c = '[' || isDigitC c then
      match testPluralRange valNo (c :: rest) with
      | none => none
      | some (true, _) => some true
      | some (false, rem) =>
        match rem.dropWhile (fun x => x != ',') with
        | [] => some false
        | _ :: rest3 => evalPluralLoop args valNo fuel rest3
    else none

/-- `EvalPluralExpr`: an empty condition (the cursor already sits on the
`:` terminator) is always true. -/
def evalPluralExpr (valNo : Nat) (fuel : Nat) (cond : List Char) : Option Bool :=
  if cond = [] then some true
  else evalPluralLoop () valNo fuel cond

/-- Is this character in the modifier set `[-a-z]`? -/
def isModifierChar (x : Char) : Bool :=
  x = '-' || (decide ('a' ≤ x) && decide (x ≤ 'z'))

/-- The pending call of the format-loop worker `fmtGo`: the
`FormatDiagnostic` loop over a piece of format text; one parsed
placeholder (modifier, optional brace argument, argument number, rest of
the text); the argument-kind switch; the integer-modifier dispatch; or
the `HandlePluralModifier` loop. -/
inductive FmtCall where
  | format (args : List FmtArg) (s : List Char)
  | placeholder (args : List FmtArg) (modChars : List Char)
      (argument : Option (List Char)) (argNo : Nat) (rest : List Char)
  | emitArg (args : List FmtArg) (modChars : List Char)
      (argument : Option (List Char)) (arg : FmtArg)
  | emitInt (args : List FmtArg) (modChars : List Char)
      (argument : Option (List Char)) (valNo : Nat) (printed : List Char)
  | plural (args : List FmtArg) (valNo : Nat) (arg : List Char)
deriving Repr

/-- `Diagnostic::FormatDiagnostic(DiagStr, DiagEnd, OutStr)` and its
mutually recursive handlers, as one fuel-bounded worker (each call burns
one unit of fuel so the recursion is structural; with sufficient fuel the
result is the C++ one).

`format`: the format loop — plain text is copied up to the next `%`;
`%` + punctuation emits the punctuation character; otherwise a
`%[modifier[\x7bargument\x7d]]N` placeholder is parsed (modifier
characters in `[-a-z]`, brace argument scanned with `ScanFormat`, then a
digit argument number) and dispatched.

`placeholder`: looks the argument up by number and, after the
argument-kind switch, continues the loop on the rest of the text behind
the emitted handler output.  The `%diff` modifier (QualType tree
diffing) is not modelled — it needs the external type printer — and is
mapped to the failure sentinel.

`emitArg`: the argument-kind switch — strings and identifiers admit no
modifier (identifiers are quoted); signed values are converted with
`(unsigned)Val` for the modifier handlers.

`emitInt`: the integer-modifier dispatch — `select` slices its argument
per `HandleSelectModifier` and recursively formats the chosen
alternative, `s` is `HandleIntegerSModifier`, `plural` enters the
`HandlePluralModifier` loop, `ordinal` is `HandleOrdinalModifier`, no
modifier prints the value.

`plural`: `HandlePluralModifier` — try each `condition:form` alternative
in turn; the first condition that holds has its form recursively
formatted.

The returned list is the text appended to `OutStr`; `none` models an
assertion failure, an out-of-bounds read, exhausted fuel, or the
unmodelled `%diff` path. -/
def fmtGo : Nat → FmtCall → Option (List Char)
  | 0, _ => none
  | fuel + 1, FmtCall.format args s =>
    match s with
    | [] => some []
    | c :: rest =>
      if c ≠ '%' then
        let plain := (c :: rest).takeWhile (fun x => x != '%')
        let rem := (c :: rest).dropWhile (fun x => x != '%')
        (fmtGo fuel (FmtCall.format args rem)).map (fun out => plain ++ out)
      else
        match rest with
        | [] => none
        | d :: rest2 =>
          if isPunctuationC d then
            (fmtGo fuel (FmtCall.format args rest2)).map (fun out => d :: out)
          else if isDigitC d then
            fmtGo fuel (FmtCall.placeholder args [] none (d.toNat - '0'.toNat) rest2)
          else
            let modChars := (d :: rest2).takeWhile isModifierChar
            let afterMod := (d :: rest2).dropWhile isModifierChar
            match afterMod with
            | b :: argStart =>
              if b = openBrace then
                match scanFormat argStart closeBrace with
                | some (argument, _ :: afterArg) =>
                  match afterArg with
                  | n :: rest3 =>
                    if isDigitC n then
                      fmtGo fuel (FmtCall.placeholder args modChars (some argument)
                        (n.toNat - '0'.toNat) rest3)
                    else none
                  | [] => none
                | _ => none
              else
                if isDigitC b then
                  fmtGo fuel
                    (FmtCall.placeholder args modChars none (b.toNat - '0'.toNat) argStart)
                else none
            | [] => none
  | fuel + 1, FmtCall.placeholder args modChars argument argNo rest =>
    if modChars = ('d' :: ['i', 'f', 'f']) then none
    else
      match args.get? argNo with
      | none => none
      | some arg =>
        match fmtGo fuel (FmtCall.emitArg args modChars argument arg) with
        | none => none
        | some emitted =>
          (fmtGo fuel (FmtCall.format args rest)).map (fun out => emitted ++ out)
  | fuel + 1, FmtCall.emitArg args modChars argument arg =>
    match arg with
    | FmtArg.stdStr chars => if modChars = [] then some chars else none
    | FmtArg.cStr chars => if modChars = [] then some chars else none
    | FmtArg.identifier chars =>
      if modChars = [] then some (quoteChar :: chars ++ [quoteChar]) else none
    | FmtArg.sint v =>
      fmtGo fuel (FmtCall.emitInt args modChars argument (toUnsigned32 v) (intToChars v))
    | FmtArg.uint v =>
      fmtGo fuel (FmtCall.emitInt args modChars argument v (natToChars v))
  | fuel + 1, FmtCall.emitInt args modChars argument valNo printed =>
    if modChars = ('s' :: ['e', 'l', 'e', 'c', 't']) then
      match argument with
      | some arg =>
        match handleSelectSlice valNo arg with
        | some slice => fmtGo fuel (FmtCall.format args slice)
        | none => none
      | none => none
    else if modChars = ['s'] then some (handleIntegerSModifier valNo)
    else if modChars = ('p' :: ['l', 'u', 'r', 'a', 'l']) then
      match argument with
      | some arg => fmtGo fuel (FmtCall.plural args valNo arg)
      | none => none
    else if modChars = ('o' :: ['r', 'd', 'i', 'n', 'a', 'l']) then
      handleOrdinalModifier valNo
    else if modChars = [] then some printed
    else none
  | fuel + 1, FmtCall.plural args valNo arg =>
    match arg with
    | [] => none
    | _ :: _ =>
      match arg.dropWhile (fun x => x != ':') with
      | [] => none
      | _ :: afterColon =>
        let cond := arg.takeWhile (fun x => x != ':')
        match evalPluralExpr valNo (fuel + 1) cond with
        | none => none
        | some true =>
          match scanFormat afterColon pipeChar with
          | some (pre, _) => fmtGo fuel (FmtCall.format args pre)
          | none => fmtGo fuel (FmtCall.format args afterColon)
        | some false =>
          match scanFormat arg.dropLast pipeChar with
          | some (pre, _) =>
            fmtGo fuel (FmtCall.plural args valNo (arg.drop (pre.length + 1)))
          | none => none

/-- `Diagnostic::FormatDiagnostic(DiagStr, DiagEnd, OutStr)`: the format
loop from its entry point. -/
def formatDiagnostic (fuel : Nat) (args : List FmtArg) (s : List Char) :
    Option (List Char) :=
  fmtGo fuel (FmtCall.format args s)

/-- `HandleSelectModifier`: skip to the `ValNo`-th alternative of the
select clause and recursively format it into the output. -/
def handleSelectModifier (fuel : Nat) (args : List FmtArg) (valNo : Nat)
    (arg : List Char) : Option (List Char) :=
  match handleSelectSlice valNo arg with
  | some slice => formatDiagnostic fuel args slice
  | none => none

/-! ## MultiArgumentExpr (src/include/flang/AST/Expr.h)

An expression with multiple arguments stores either the single argument
inline (`Expr *Argument`) or a pointer to an arena-allocated argument
vector (`Expr **Arguments`); the union is discriminated by
`NumArguments`.  Argument handles (`Expr*`) are modelled as `Nat`. -/

/-- The `union { Expr **Arguments; Expr *Argument; }`. -/
inductive ArgStore where
  | inline (argument : Nat)
  | outOfLine (arguments : List Nat)
deriving DecidableEq, Repr

/-- `MultiArgumentExpr`: the argument count and the union. -/
structure MultiArgumentExpr where
  numArguments : Nat
  store : ArgStore
deriving DecidableEq, Repr

/-- The constructor `MultiArgumentExpr(ASTContext&, ArrayRef<Expr*>)`.
Modelled from the spec (the constructor's body lives in `Expr.cpp`, not
under `src/`): "Multi-argument expressions ... inline a single argument or
point to an arena-allocated argument vector", discriminated by the
argument count per the header's `getArguments`. -/
def MultiArgumentExpr.make (as : List Nat) : MultiArgumentExpr :=
  if h : as.length = 1 then ⟨1, ArgStore.inline (as.head (by intro he; rw [he] at h; simp at h))⟩
  else ⟨as.length, ArgStore.outOfLine as⟩

/-- `getArguments`: `NumArguments == 1 ? ArrayRef(Argument)
: ArrayRef(Arguments, NumArguments)`.  Reading the union member that is
not active is undefined behaviour in the C++ and unreachable from the
constructor; those branches return junk (`[]`). -/
def MultiArgumentExpr.getArguments (m : MultiArgumentExpr) : List Nat :=
  if m.numArguments = 1 then
    match m.store with
    | ArgStore.inline a => [a]
    | ArgStore.outOfLine _ => []
  else
    match m.store with
    | ArgStore.inline _ => []
    | ArgStore.outOfLine as => as.take m.numArguments

/-! ## Theorems -/

theorem internWF_empty : InternWF InternState.empty := by
  constructor <;> intro p h <;> simp [InternState.empty]

theorem findNode_eq_none {t : List (TypeProfile × Nat)} {p : TypeProfile}
    (hn : findNode t p = none) : ∀ h, (p, h) ∉ t := by
  intro h hmem
  unfold findNode at hn
  cases hfind : t.find? (fun e => e.1 = p) with
  | some e => rw [hfind] at hn; simp at hn
  | none =>
    have := List.find?_eq_none.mp hfind _ hmem
    simp at this

theorem findNode_eq_some {t : List (TypeProfile × Nat)} {p : TypeProfile} {h : Nat}
    (hs : findNode t p = some h) : (p, h) ∈ t := by
  unfold findNode at hs
  cases hfind : t.find? (fun e => e.1 = p) with
  | none => rw [hfind] at hs; simp at hs
  | some e =>
    rw [hfind] at hs
    simp at hs
    have hmem := List.mem_of_find?_eq_some hfind
    have hpred := List.find?_some hfind
    have he1 : e.1 = p := by simpa using hpred
    cases e
    simp_all

/-- A request returns a handle registered for its profile. -/
theorem internType_mem {s : InternState} {p : TypeProfile} :
    (p, (internType s p).1) ∈ (internType s p).2.table := by
  unfold internType
  cases hf : findNode s.table p with
  | some h => simpa using findNode_eq_some hf
  | none => simp

/-- Interning only appends to the table. -/
theorem internType_mono {s : InternState} {p : TypeProfile} {e : TypeProfile × Nat}
    (he : e ∈ s.table) : e ∈ (internType s p).2.table := by
  unfold internType
  cases hf : findNode s.table p with
  | some h => simpa using he
  | none => simp [he]

/-- Interning preserves well-formedness. -/
theorem internType_wf {s : InternState} {p : TypeProfile} (hwf : InternWF s) :
    InternWF (internType s p).2 := by
  unfold internType
  cases hf : findNode s.table p with
  | some h => simpa using hwf
  | none =>
    simp only
    constructor
    · intro q h hmem
      simp only [List.mem_append, List.mem_singleton] at hmem
      rcases hmem with hmem | hmem
      · exact Nat.lt_succ_of_lt (hwf.bounded _ _ hmem)
      · cases hmem; exact Nat.lt_succ_self _
    · intro q h h' hmem hmem'
      simp only [List.mem_append, List.mem_singleton] at hmem hmem'
      rcases hmem with hmem | hmem <;> rcases hmem' with hmem' | hmem'
      · exact hwf.functional _ _ _ hmem hmem'
      · cases hmem'; exact absurd hmem (findNode_eq_none hf _)
      · cases hmem; exact absurd hmem' (findNode_eq_none hf _)
      · cases hmem; cases hmem'; rfl
    · intro q q' h hmem hmem'
      simp only [List.mem_append, List.mem_singleton] at hmem hmem'
      rcases hmem with hmem | hmem <;> rcases hmem' with hmem' | hmem'
      · exact hwf.injective _ _ _ hmem hmem'
      · cases hmem'
        exact absurd (hwf.bounded _ _ hmem) (Nat.lt_irrefl _)
      · cases hmem
        exact absurd (hwf.bounded _ _ hmem') (Nat.lt_irrefl _)
      · cases hmem; cases hmem'; rfl

theorem runIntern_length {s : InternState} {ps : List TypeProfile} :
    (runIntern s ps).1.length = ps.length := by
  induction ps generalizing s with
  | nil => rfl
  | cons p ps ih => simp [runIntern, ih]

theorem runIntern_mono {s : InternState} {ps : List TypeProfile}
    {e : TypeProfile × Nat} (he : e ∈ s.table) : e ∈ (runIntern s ps).2.table := by
  induction ps generalizing s with
  | nil => simpa [runIntern] using he
  | cons p ps ih => exact ih (internType_mono he)

theorem runIntern_wf {s : InternState} {ps : List TypeProfile} (hwf : InternWF s) :
    InternWF (runIntern s ps).2 := by
  induction ps generalizing s with
  | nil => simpa [runIntern] using hwf
  | cons p ps ih => exact ih (internType_wf hwf)

/-- Every response is registered for its request's profile in the final
table. -/
theorem runIntern_resp_mem {s : InternState} {ps : List TypeProfile}
    (i : Nat) (hi : i < ps.length) :
    (ps.get ⟨i, hi⟩, (runIntern s ps).1.get ⟨i, by rw [runIntern_length]; exact hi⟩) ∈
      (runIntern s ps).2.table := by
  induction ps generalizing s i with
  | nil => exact absurd hi (Nat.not_lt_zero _)
  | cons p ps ih =>
    cases i with
    | zero =>
      simp only [runIntern, List.get]
      exact runIntern_mono internType_mem
    | succ n =>
      simp only [runIntern, List.get]
      exact ih n (Nat.lt_of_succ_lt_succ hi)

/-- C1: for every two type-construction requests with identical structural
profiles the returned handles are equal, and for every two requests with
differing profiles the returned handles are distinct — over any request
sequence run against a fresh `ASTContext`. -/
theorem typeInterning_identity (ps : List TypeProfile) (i j : Nat)
    (hi : i < ps.length) (hj : j < ps.length) :
    (runIntern InternState.empty ps).1.get ⟨i, by rw [runIntern_length]; exact hi⟩ =
      (runIntern InternState.empty ps).1.get ⟨j, by rw [runIntern_length]; exact hj⟩ ↔
    ps.get ⟨i, hi⟩ = ps.get ⟨j, hj⟩ := by
  have hwf := @runIntern_wf InternState.empty ps internWF_empty
  have hmi := @runIntern_resp_mem InternState.empty ps i hi
  have hmj := @runIntern_resp_mem InternState.empty ps j hj
  constructor
  · intro h
    exact hwf.injective _ _ _ hmi (by rw [h]; exact hmj)
  · intro h
    exact hwf.functional _ _ _ (by rw [← h]; exact hmi) hmj

/-- Concrete instance of `typeInterning_identity`: in the request sequence
pointer(0,1), character(len 2, kind none), array(0,[1,2]), pointer(0,1),
pointer(0,2), requests 0 and 3 (same profile) receive the same handle while
requests 0 and 4 (different dimension count) receive distinct handles. -/
theorem typeInterning_identity_witness :
    ((runIntern InternState.empty
        [TypeProfile.ptr 0 1, TypeProfile.char (some 2) none,
         TypeProfile.arr 0 [1, 2], TypeProfile.ptr 0 1, TypeProfile.ptr 0 2]).1.get
        ⟨0, by rw [runIntern_length]; decide⟩ =
      (runIntern InternState.empty
        [TypeProfile.ptr 0 1, TypeProfile.char (some 2) none,
         TypeProfile.arr 0 [1, 2], TypeProfile.ptr 0 1, TypeProfile.ptr 0 2]).1.get
        ⟨3, by rw [runIntern_length]; decide⟩) ∧
    ¬ ((runIntern InternState.empty
        [TypeProfile.ptr 0 1, TypeProfile.char (some 2) none,
         TypeProfile.arr 0 [1, 2], TypeProfile.ptr 0 1, TypeProfile.ptr 0 2]).1.get
        ⟨0, by rw [runIntern_length]; decide⟩ =
      (runIntern InternState.empty
        [TypeProfile.ptr 0 1, TypeProfile.char (some 2) none,
         TypeProfile.arr 0 [1, 2], TypeProfile.ptr 0 1, TypeProfile.ptr 0 2]).1.get
        ⟨4, by rw [runIntern_length]; decide⟩) :=
  ⟨(typeInterning_identity _ 0 3 (by decide) (by decide)).mpr (by decide),
   fun h => by
    have := (typeInterning_identity
      [TypeProfile.ptr 0 1, TypeProfile.char (some 2) none,
       TypeProfile.arr 0 [1, 2], TypeProfile.ptr 0 1, TypeProfile.ptr 0 2]
      0 4 (by decide) (by decide)).mp h
    exact absurd this (by decide)⟩

theorem lookupFEToken_set_self (s : SemaState) (name : String) (vd : VarDeclM) :
    lookupFEToken (setFEToken s name vd) name = some vd := by
  simp [lookupFEToken, setFEToken, List.find?]

theorem lookupFEToken_pop (s : SemaState) (name : String) :
    lookupFEToken (popDeclContext s) name = lookupFEToken s name := rfl

theorem addDeclToCur_diags (s : SemaState) (vd : VarDeclM) :
    (addDeclToCur s vd).diags = s.diags := by
  unfold addDeclToCur
  split <;> rfl

theorem addDeclToCur_getContext {s : SemaState} {ctx : DeclContextM} (vd : VarDeclM)
    (hctx : s.contexts.get? s.curContext = some ctx) :
    getContext (addDeclToCur s vd) s.curContext =
      { ctx with decls := ctx.decls ++ [vd] } := by
  unfold addDeclToCur getContext
  rw [hctx]
  have hctx' : s.contexts[s.curContext]? = some ctx := by
    rw [← List.get?_eq_getElem?]
    exact hctx
  simp [List.getElem?_set_self', hctx']

/-- A successful `ActOnEntityDecl` went through the fall-through creation:
the returned declaration is the freshly created `VarDecl` in the current
context, added to it and stored in the front-end-token slot. -/
theorem entityDecl_success_shape {s : SemaState} {ds : TST} {idLoc : Nat}
    {name : String} {vd : VarDeclM} {s' : SemaState}
    (h : actOnEntityDecl s ds idLoc name = (some vd, s')) :
    vd = ⟨s.curContext, idLoc, name, actOnTypeName ds, false⟩ ∧
    s' = setFEToken (addDeclToCur s vd) name vd := by
  unfold actOnEntityDecl entityDeclCreate at h
  split at h
  · split at h
    · simp at h
    · simp only [Prod.mk.injEq, Option.some.injEq] at h
      obtain ⟨h1, h2⟩ := h
      subst h1
      exact ⟨rfl, h2.symm⟩
  · simp only [Prod.mk.injEq, Option.some.injEq] at h
    obtain ⟨h1, h2⟩ := h
    subst h1
    exact ⟨rfl, h2.symm⟩

/-- C2: for a reference to an undeclared identifier (no front-end token),
the implicit entity declaration is created with default integer type when
the upper-cased first letter is I..N and default real type otherwise. -/
theorem implicitEntityDecl_letterRule (s : SemaState) (idLoc : Nat) (name : String)
    (hundecl : lookupFEToken s name = none) :
    (actOnImplicitEntityDecl s idLoc name).1 =
      some ⟨s.curContext, idLoc, name,
        if 'I' ≤ (name.toList.headD (Char.ofNat 0)).toUpper ∧
            (name.toList.headD (Char.ofNat 0)).toUpper ≤ 'N'
          then some BaseType.integerTy else some BaseType.realTy,
        false⟩ := by
  unfold actOnImplicitEntityDecl
  by_cases hc : 'I' ≤ (name.toList.headD (Char.ofNat 0)).toUpper ∧
      (name.toList.headD (Char.ofNat 0)).toUpper ≤ 'N' <;>
    simp only [hc, if_true, if_false, ite_true, ite_false] <;>
    · unfold actOnEntityDecl
      rw [hundecl]
      simp [entityDeclCreate, actOnTypeName]

/-- `implicitEntityDecl_letterRule` at undeclared `i` (→ default integer)
and undeclared `x` (→ default real) in a fresh translation unit — the
spec's implicit-typing scenario. -/
theorem implicitEntityDecl_letterRule_witness :
    lookupFEToken SemaState.initial "i" = none ∧
    (actOnImplicitEntityDecl SemaState.initial 1 "i").1 =
      some ⟨0, 1, "i", some BaseType.integerTy, false⟩ ∧
    (actOnImplicitEntityDecl SemaState.initial 2 "x").1 =
      some ⟨0, 2, "x", some BaseType.realTy, false⟩ := by
  refine ⟨rfl, ?_, ?_⟩
  · rw [implicitEntityDecl_letterRule SemaState.initial 1 "i" rfl]
    decide
  · rw [implicitEntityDecl_letterRule SemaState.initial 2 "x" rfl]
    decide

/-- C3 counterexample: declare `n` in the translation unit, push a main
program, declare `n` again inside it (legal shadowing), end the program
(popping the context back to the translation unit): the front-end token
still holds the inner declaration, not the binding that was active before
the push — `PopDeclContext` restores nothing. -/
theorem scopeRestore_counterexample :
    (actOnEntityDecl SemaState.initial TST.integer 1 "n").1 =
      some ⟨0, 1, "n", some BaseType.integerTy, false⟩ ∧
    lookupFEToken
      (actOnEndMainProgram
        (actOnEntityDecl
          (actOnMainProgram (actOnEntityDecl SemaState.initial TST.integer 1 "n").2 "p")
          TST.real 2 "n").2 none 3) "n" =
      some ⟨1, 2, "n", some BaseType.realTy, false⟩ ∧
    (actOnEndMainProgram
        (actOnEntityDecl
          (actOnMainProgram (actOnEntityDecl SemaState.initial TST.integer 1 "n").2 "p")
          TST.real 2 "n").2 none 3).curContext = 0 ∧
    (⟨1, 2, "n", some BaseType.realTy, false⟩ : VarDeclM) ≠
      ⟨0, 1, "n", some BaseType.integerTy, false⟩ := by
  refine ⟨rfl, rfl, rfl, by decide⟩

/-- C3 (amended): after a name is bound by a declaration inside the
current context and that context is popped, looking the name up through
the front-end token still yields the declaration made inside the popped
context (the prior binding is not restored). -/
theorem popDeclContext_keeps_inner_binding (s : SemaState) (ds : TST) (idLoc : Nat)
    (name : String) (vd : VarDeclM) (s' : SemaState)
    (h : actOnEntityDecl s ds idLoc name = (some vd, s')) :
    lookupFEToken (popDeclContext s') name = some vd := by
  obtain ⟨-, hs⟩ := entityDecl_success_shape h
  subst hs
  rw [lookupFEToken_pop]
  exact lookupFEToken_set_self _ _ _

/-- `popDeclContext_keeps_inner_binding` on the counterexample run: after
popping the program context the token still holds the inner `n`. -/
theorem popDeclContext_keeps_inner_binding_witness :
    lookupFEToken
      (popDeclContext
        (actOnEntityDecl
          (actOnMainProgram (actOnEntityDecl SemaState.initial TST.integer 1 "n").2 "p")
          TST.real 2 "n").2) "n" =
      some ⟨1, 2, "n", some BaseType.realTy, false⟩ :=
  popDeclContext_keeps_inner_binding
    (actOnMainProgram (actOnEntityDecl SemaState.initial TST.integer 1 "n").2 "p")
    TST.real 2 "n" ⟨1, 2, "n", some BaseType.realTy, false⟩ _ (by decide)

/-- C4: an entity declaration whose name already has a visible declaration
in the current declaration context is rejected: an error at the new site,
a note at the prior declaration, a null result, and no state change other
than the two diagnostics (in particular no second declaration). -/
theorem entityDecl_redeclaration_rejected (s : SemaState) (ds : TST) (idLoc : Nat)
    (name : String) (prev : VarDeclM)
    (hprev : lookupFEToken s name = some prev)
    (hsame : prev.declContext = s.curContext) :
    actOnEntityDecl s ds idLoc name =
      (none,
        { s with diags := s.diags ++
            [⟨DiagLevel.error, idLoc, DiagMsg.alreadyDeclared name⟩,
             ⟨DiagLevel.note, prev.loc, DiagMsg.previousDeclaration⟩] }) := by
  unfold actOnEntityDecl
  rw [hprev]
  simp [hsame, reportError, reportNote]

/-- `entityDecl_redeclaration_rejected` on `INTEGER I` followed by
`REAL I` in the translation unit: one error, one note, null result, no
second declaration. -/
theorem entityDecl_redeclaration_rejected_witness :
    lookupFEToken
      ⟨[⟨none, CtxKind.translationUnit, "", [⟨0, 1, "i", some BaseType.integerTy, false⟩]⟩],
        0, [("i", ⟨0, 1, "i", some BaseType.integerTy, false⟩)], []⟩ "i" =
      some ⟨0, 1, "i", some BaseType.integerTy, false⟩ ∧
    actOnEntityDecl
      ⟨[⟨none, CtxKind.translationUnit, "", [⟨0, 1, "i", some BaseType.integerTy, false⟩]⟩],
        0, [("i", ⟨0, 1, "i", some BaseType.integerTy, false⟩)], []⟩ TST.real 2 "i" =
      (none,
        ⟨[⟨none, CtxKind.translationUnit, "", [⟨0, 1, "i", some BaseType.integerTy, false⟩]⟩],
          0, [("i", ⟨0, 1, "i", some BaseType.integerTy, false⟩)],
          [⟨DiagLevel.error, 2, DiagMsg.alreadyDeclared "i"⟩,
           ⟨DiagLevel.note, 1, DiagMsg.previousDeclaration⟩]⟩) := by
  refine ⟨rfl, ?_⟩
  exact entityDecl_redeclaration_rejected
    ⟨[⟨none, CtxKind.translationUnit, "", [⟨0, 1, "i", some BaseType.integerTy, false⟩]⟩],
      0, [("i", ⟨0, 1, "i", some BaseType.integerTy, false⟩)], []⟩
    TST.real 2 "i" ⟨0, 1, "i", some BaseType.integerTy, false⟩ (by decide) (by decide)

/-- C10: when the prior binding of the name belongs to a different
declaration context, `ActOnEntityDecl` succeeds with no diagnostic,
creates the declaration in the current context (appending it to the
context's declaration list), and rebinds the front-end token to it. -/
theorem entityDecl_shadowing_allowed (s : SemaState) (ds : TST) (idLoc : Nat)
    (name : String) (prev : VarDeclM) (ctx : DeclContextM)
    (hprev : lookupFEToken s name = some prev)
    (hdiff : prev.declContext ≠ s.curContext)
    (hctx : s.contexts.get? s.curContext = some ctx) :
    ∃ vd,
      actOnEntityDecl s ds idLoc name = (some vd, setFEToken (addDeclToCur s vd) name vd) ∧
      vd.declContext = s.curContext ∧
      (setFEToken (addDeclToCur s vd) name vd).diags = s.diags ∧
      lookupFEToken (setFEToken (addDeclToCur s vd) name vd) name = some vd ∧
      getContext (setFEToken (addDeclToCur s vd) name vd) s.curContext =
        { ctx with decls := ctx.decls ++ [vd] } := by
  refine ⟨⟨s.curContext, idLoc, name, actOnTypeName ds, false⟩, ?_, rfl, ?_, ?_, ?_⟩
  · unfold actOnEntityDecl
    rw [hprev]
    simp [hdiff, entityDeclCreate]
  · exact addDeclToCur_diags s _
  · exact lookupFEToken_set_self _ _ _
  · exact addDeclToCur_getContext _ hctx

/-- `entityDecl_shadowing_allowed` with `n` previously declared in the
translation unit while the current context is a main program. -/
theorem entityDecl_shadowing_allowed_witness :
    lookupFEToken
      ⟨[⟨none, CtxKind.translationUnit, "", [⟨0, 5, "n", some BaseType.realTy, false⟩]⟩,
        ⟨some 0, CtxKind.mainProgram, "p", []⟩],
        1, [("n", ⟨0, 5, "n", some BaseType.realTy, false⟩)], []⟩ "n" =
      some ⟨0, 5, "n", some BaseType.realTy, false⟩ ∧
    ∃ vd,
      actOnEntityDecl
        ⟨[⟨none, CtxKind.translationUnit, "", [⟨0, 5, "n", some BaseType.realTy, false⟩]⟩,
          ⟨some 0, CtxKind.mainProgram, "p", []⟩],
          1, [("n", ⟨0, 5, "n", some BaseType.realTy, false⟩)], []⟩ TST.integer 6 "n" =
        (some vd,
          setFEToken
            (addDeclToCur
              ⟨[⟨none, CtxKind.translationUnit, "", [⟨0, 5, "n", some BaseType.realTy, false⟩]⟩,
                ⟨some 0, CtxKind.mainProgram, "p", []⟩],
                1, [("n", ⟨0, 5, "n", some BaseType.realTy, false⟩)], []⟩ vd) "n" vd) ∧
      vd.declContext = 1 ∧
      (setFEToken
        (addDeclToCur
          ⟨[⟨none, CtxKind.translationUnit, "", [⟨0, 5, "n", some BaseType.realTy, false⟩]⟩,
            ⟨some 0, CtxKind.mainProgram, "p", []⟩],
            1, [("n", ⟨0, 5, "n", some BaseType.realTy, false⟩)], []⟩ vd) "n" vd).diags = [] ∧
      lookupFEToken
        (setFEToken
          (addDeclToCur
            ⟨[⟨none, CtxKind.translationUnit, "", [⟨0, 5, "n", some BaseType.realTy, false⟩]⟩,
              ⟨some 0, CtxKind.mainProgram, "p", []⟩],
              1, [("n", ⟨0, 5, "n", some BaseType.realTy, false⟩)], []⟩ vd) "n" vd) "n" =
        some vd ∧
      getContext
        (setFEToken
          (addDeclToCur
            ⟨[⟨none, CtxKind.translationUnit, "", [⟨0, 5, "n", some BaseType.realTy, false⟩]⟩,
              ⟨some 0, CtxKind.mainProgram, "p", []⟩],
              1, [("n", ⟨0, 5, "n", some BaseType.realTy, false⟩)], []⟩ vd) "n" vd) 1 =
        ⟨some 0, CtxKind.mainProgram, "p", [vd]⟩ :=
  ⟨rfl,
    entityDecl_shadowing_allowed _ TST.integer 6 "n" _ ⟨some 0, CtxKind.mainProgram, "p", []⟩
      rfl (by decide) rfl⟩

/-- C5 counterexample: a PARAMETER pair for the unbound name `c` creates a
variable declaration whose `isParameter` attribute is unset — the
declaration is not marked parameter as the claim states (`VarDecl::Create`
receives no attribute information). -/
theorem parameterPair_not_marked :
    lookupFEToken SemaState.initial "c" = none ∧
    lookupFEToken
      (actOnPARAMETERPair SemaState.initial 4 "c" ⟨5, some BaseType.integerTy⟩).2 "c" =
      some ⟨0, 4, "c", some BaseType.integerTy, false⟩ ∧
    ¬ (⟨0, 4, "c", some BaseType.integerTy, false⟩ : VarDeclM).isParameter = true :=
  ⟨rfl, rfl, by decide⟩

/-- C5 (amended): a PARAMETER pair naming an as-yet-unbound identifier
creates a variable declaration whose type equals the constant expression's
type (not marked parameter), adds it to the current context and binds the
front-end token; when the name is already bound in the same context, an
error is emitted at the pair with a note at the prior definition, the
empty pair is returned, and no declaration is created. -/
theorem parameterPair_behaviour (s : SemaState) (loc : Nat) (name : String) (ce : ExprM) :
    (lookupFEToken s name = none →
      actOnPARAMETERPair s loc name ce =
        ((some name, some ce),
          setFEToken (addDeclToCur s ⟨s.curContext, loc, name, ce.type, false⟩) name
            ⟨s.curContext, loc, name, ce.type, false⟩)) ∧
    (∀ prev, lookupFEToken s name = some prev → prev.declContext = s.curContext →
      actOnPARAMETERPair s loc name ce =
        ((none, none),
          { s with diags := s.diags ++
              [⟨DiagLevel.error, loc, DiagMsg.alreadyDefined name⟩,
               ⟨DiagLevel.note, prev.loc, DiagMsg.previousDefinition⟩] })) := by
  constructor
  · intro h
    unfold actOnPARAMETERPair
    rw [h]
  · intro prev hp _
    unfold actOnPARAMETERPair
    rw [hp]
    simp [reportError, reportNote]

/-- `parameterPair_behaviour` at the unbound name `c` in a fresh
translation unit and at the bound name `i`. -/
theorem parameterPair_behaviour_witness :
    actOnPARAMETERPair SemaState.initial 4 "c" ⟨5, some BaseType.integerTy⟩ =
      ((some "c", some ⟨5, some BaseType.integerTy⟩),
        setFEToken (addDeclToCur SemaState.initial ⟨0, 4, "c", some BaseType.integerTy, false⟩)
          "c" ⟨0, 4, "c", some BaseType.integerTy, false⟩) ∧
    actOnPARAMETERPair
      ⟨[⟨none, CtxKind.translationUnit, "", [⟨0, 1, "i", some BaseType.integerTy, false⟩]⟩],
        0, [("i", ⟨0, 1, "i", some BaseType.integerTy, false⟩)], []⟩ 2 "i"
      ⟨3, some BaseType.realTy⟩ =
      ((none, none),
        ⟨[⟨none, CtxKind.translationUnit, "", [⟨0, 1, "i", some BaseType.integerTy, false⟩]⟩],
          0, [("i", ⟨0, 1, "i", some BaseType.integerTy, false⟩)],
          [⟨DiagLevel.error, 2, DiagMsg.alreadyDefined "i"⟩,
           ⟨DiagLevel.note, 1, DiagMsg.previousDefinition⟩]⟩) :=
  ⟨(parameterPair_behaviour SemaState.initial 4 "c" ⟨5, some BaseType.integerTy⟩).1 rfl,
   (parameterPair_behaviour _ 2 "i" ⟨3, some BaseType.realTy⟩).2
     ⟨0, 1, "i", some BaseType.integerTy, false⟩ rfl rfl⟩

/-- C6: `ActOnIMPLICIT` for `IMPLICIT NONE` records nothing in the
analyzer state, so a later reference to the undeclared `i` is still
implicitly declared with default integer type by the letter rule and no
error is reported — the code does not implement the claimed
IMPLICIT NONE behaviour (its own `FIXME` says the implicit declaration
"needs to look at the IMPLICIT statements"). -/
theorem implicitNone_has_no_effect :
    (actOnIMPLICITNone (actOnMainProgram SemaState.initial "t") 1).1 =
      actOnMainProgram SemaState.initial "t" ∧
    (actOnImplicitEntityDecl
        (actOnIMPLICITNone (actOnMainProgram SemaState.initial "t") 1).1 2 "i").1 =
      some ⟨1, 2, "i", some BaseType.integerTy, false⟩ ∧
    (actOnImplicitEntityDecl
        (actOnIMPLICITNone (actOnMainProgram SemaState.initial "t") 1).1 2 "i").2.diags = [] :=
  ⟨rfl, rfl, rfl⟩

/-- C9: `ActOnEndMainProgram` pops the current context back to the
translation unit, and emits a name-mismatch error exactly when the program
has a non-empty name, the END statement carries an identifier, and the two
names differ; an END statement without a name never produces the error. -/
theorem endMainProgram_pop_and_check (s : SemaState) (endName : Option String)
    (nameLoc : Nat) (ctx : DeclContextM)
    (hctx : s.contexts.get? s.curContext = some ctx)
    (hkind : ctx.kind = CtxKind.mainProgram)
    (hparent : ctx.parent = some 0) :
    (actOnEndMainProgram s endName nameLoc).curContext = 0 ∧
    (actOnEndMainProgram s endName nameLoc).diags =
      s.diags ++
        (match endName with
         | some n =>
           if ctx.name ≠ "" ∧ ctx.name ≠ n
             then [⟨DiagLevel.error, nameLoc, DiagMsg.endProgramNameMismatch ctx.name⟩]
             else []
         | none => []) := by
  have hget : getContext s s.curContext = ctx := by
    unfold getContext
    rw [hctx]
    rfl
  have hctx' : s.contexts[s.curContext]? = some ctx := by
    rw [← List.get?_eq_getElem?]
    exact hctx
  unfold actOnEndMainProgram
  rw [hget]
  cases endName with
  | none =>
    by_cases h0 : ctx.name = "" <;>
      simp [h0, popDeclContext, hctx', hparent, reportError]
  | some n =>
    by_cases h0 : ctx.name = ""
    · simp [h0, popDeclContext, hctx', hparent]
    · by_cases hne : ctx.name = n <;>
        simp [h0, hne, popDeclContext, hctx', hparent, reportError]

/-- `endMainProgram_pop_and_check` after `PROGRAM p`: `END PROGRAM q`
errors and pops; the error-free instantiation is covered by the theorem's
conditional. -/
theorem endMainProgram_pop_and_check_witness :
    (actOnEndMainProgram (actOnMainProgram SemaState.initial "p") (some "q") 7).curContext = 0 ∧
    (actOnEndMainProgram (actOnMainProgram SemaState.initial "p") (some "q") 7).diags =
      [⟨DiagLevel.error, 7, DiagMsg.endProgramNameMismatch "p"⟩] := by
  have h := endMainProgram_pop_and_check (actOnMainProgram SemaState.initial "p") (some "q") 7
    ⟨some 0, CtxKind.mainProgram, "p", []⟩ rfl rfl rfl
  refine ⟨h.1, ?_⟩
  rw [h.2]
  decide

/-- C7: reading the arguments of a `MultiArgumentExpr` built from a
non-empty argument list yields exactly the original list, whether the
inline single-argument representation or the out-of-line vector was
used. -/
theorem multiArgumentExpr_roundtrip (as : List Nat) (hne : as ≠ []) :
    (MultiArgumentExpr.make as).getArguments = as := by
  rcases as with _ | ⟨a, rest⟩
  · exact absurd rfl hne
  · rcases rest with _ | ⟨b, rest2⟩
    · simp [MultiArgumentExpr.make, MultiArgumentExpr.getArguments]
    · have hlen : (a :: b :: rest2).length ≠ 1 := by simp
      simp [MultiArgumentExpr.make, MultiArgumentExpr.getArguments, hlen]

theorem prependScan_nil (o : Option (List Char × List Char)) : prependScan [] o = o := by
  cases o <;> simp [prependScan]

theorem prependScan_comp (p q : List Char) (o : Option (List Char × List Char)) :
    prependScan p (prependScan q o) = prependScan (p ++ q) o := by
  cases o <;> simp [prependScan]

theorem scanAux_found (t : Char) (rest : List Char) :
    scanAux t (t :: rest) (ScanMode.normal 0) = some ([], t :: rest) := by
  simp [scanAux]

theorem scanAux_zero_plain {t c : Char} (rest : List Char)
    (hct : c ≠ t) (hp : c ≠ '%') :
    scanAux t (c :: rest) (ScanMode.normal 0) =
      prependScan [c] (scanAux t rest (ScanMode.normal 0)) := by
  simp [scanAux, hct, hp]

theorem scanAux_succ_plain {c : Char} (t : Char) (rest : List Char) (d : Nat)
    (hp : c ≠ '%') (hb : c ≠ closeBrace) :
    scanAux t (c :: rest) (ScanMode.normal (d + 1)) =
      prependScan [c] (scanAux t rest (ScanMode.normal (d + 1))) := by
  simp [scanAux, hp, hb]

theorem scanAux_succ_close (t : Char) (rest : List Char) (d : Nat) :
    scanAux t (closeBrace :: rest) (ScanMode.normal (d + 1)) =
      prependScan [closeBrace] (scanAux t rest (ScanMode.normal d)) := by
  have h1 : ¬ (closeBrace = '%') := by decide
  simp [scanAux, h1]

theorem scanAux_zero_escape {t e : Char} (rest : List Char)
    (ht : t ≠ '%') (he : (isDigitC e || isPunctuationC e) = true) :
    scanAux t ('%' :: e :: rest) (ScanMode.normal 0) =
      prependScan ['%', e] (scanAux t rest (ScanMode.normal 0)) := by
  have ht' : ¬ ('%' = t) := fun h => ht h.symm
  have he' : isDigitC e = true ∨ isPunctuationC e = true := by
    simpa [Bool.or_eq_true] using he
  simp [scanAux, ht', he', prependScan_comp]

theorem scanAux_succ_escape {e : Char} (t : Char) (rest : List Char) (k : Nat)
    (he : (isDigitC e || isPunctuationC e) = true) :
    scanAux t ('%' :: e :: rest) (ScanMode.normal (k + 1)) =
      prependScan ['%', e] (scanAux t rest (ScanMode.normal (k + 1))) := by
  have h1 : ¬ (('%' : Char) = closeBrace) := by decide
  have he' : isDigitC e = true ∨ isPunctuationC e = true := by
    simpa [Bool.or_eq_true] using he
  simp [scanAux, h1, he', prependScan_comp]

theorem scanAux_modifier_skip (t : Char) (mods rest : List Char) (d : Nat)
    (hmods : ∀ x ∈ mods, (!isDigitC x && x != openBrace) = true) :
    scanAux t (mods ++ openBrace :: rest) (ScanMode.modifier d) =
      prependScan (mods ++ [openBrace]) (scanAux t rest (ScanMode.normal (d + 1))) := by
  induction mods with
  | nil => simp [scanAux]
  | cons x xs ih =>
    have hx := hmods x (by simp)
    simp only [Bool.and_eq_true, Bool.not_eq_true', bne_iff_ne, ne_eq] at hx
    have hstep : scanAux t ((x :: xs) ++ openBrace :: rest) (ScanMode.modifier d) =
        prependScan [x] (scanAux t (xs ++ openBrace :: rest) (ScanMode.modifier d)) := by
      simp [scanAux, hx.1, hx.2]
    rw [hstep, ih (fun y hy => hmods y (by simp [hy])), prependScan_comp]
    rfl

theorem scanAux_zero_modifier {t m : Char} (mods rest : List Char)
    (ht : t ≠ '%') (hm : (isDigitC m || isPunctuationC m) = false)
    (hmods : ∀ x ∈ mods, (!isDigitC x && x != openBrace) = true) :
    scanAux t ('%' :: m :: (mods ++ openBrace :: rest)) (ScanMode.normal 0) =
      prependScan ('%' :: m :: (mods ++ [openBrace])) (scanAux t rest (ScanMode.normal 1)) := by
  have ht' : ¬ ('%' = t) := fun h => ht h.symm
  have hm1 : isDigitC m = false := by
    cases hdm : isDigitC m <;> simp_all
  have hm2 : isPunctuationC m = false := by
    cases hdm : isPunctuationC m <;> simp_all
  have hfirst : scanAux t ('%' :: m :: (mods ++ openBrace :: rest)) (ScanMode.normal 0) =
      prependScan ['%'] (prependScan [m]
        (scanAux t (mods ++ openBrace :: rest) (ScanMode.modifier 0))) := by
    simp [scanAux, ht', hm1, hm2]
  rw [hfirst, scanAux_modifier_skip t mods rest 0 hmods,
    prependScan_comp, prependScan_comp]
  rfl

theorem pipeNeutral_nil : PipeNeutral [] := by
  intro r
  rw [List.nil_append, prependScan_nil]

theorem pipeNeutral_cons {c : Char} {a : List Char} (hc1 : c ≠ pipeChar) (hc2 : c ≠ '%')
    (h : PipeNeutral a) : PipeNeutral (c :: a) := by
  intro r
  rw [List.cons_append, scanAux_zero_plain _ hc1 hc2, h r, prependScan_comp]
  rfl

theorem pipeNeutral_escape {e : Char} {a : List Char}
    (he : (isDigitC e || isPunctuationC e) = true) (h : PipeNeutral a) :
    PipeNeutral ('%' :: e :: a) := by
  intro r
  rw [List.cons_append, List.cons_append, scanAux_zero_escape _ (by decide) he, h r,
    prependScan_comp]
  rfl

theorem nzNeutral_nil : NZNeutral [] := by
  intro r d
  rw [List.nil_append, prependScan_nil]

theorem nzNeutral_cons {c : Char} {a : List Char} (hc1 : c ≠ '%') (hc2 : c ≠ closeBrace)
    (h : NZNeutral a) : NZNeutral (c :: a) := by
  intro r d
  rw [List.cons_append, scanAux_succ_plain _ _ _ hc1 hc2, h r d, prependScan_comp]
  rfl

theorem nzNeutral_escape {e : Char} {a : List Char}
    (he : (isDigitC e || isPunctuationC e) = true) (h : NZNeutral a) :
    NZNeutral ('%' :: e :: a) := by
  intro r d
  rw [List.cons_append, List.cons_append, scanAux_succ_escape _ _ _ he, h r d,
    prependScan_comp]
  rfl

theorem pipeNeutral_modifier {m : Char} (mods inner tail : List Char)
    (hm : (isDigitC m || isPunctuationC m) = false)
    (hmods : ∀ x ∈ mods, (!isDigitC x && x != openBrace) = true)
    (hinner : NZNeutral inner) (htail : PipeNeutral tail) :
    PipeNeutral ('%' :: m :: (mods ++ openBrace :: (inner ++ closeBrace :: tail))) := by
  intro r
  have hassoc : ('%' :: m :: (mods ++ openBrace :: (inner ++ closeBrace :: tail))) ++ r
      = '%' :: m :: (mods ++ openBrace :: (inner ++ closeBrace :: (tail ++ r))) := by
    simp
  rw [hassoc, scanAux_zero_modifier mods _ (by decide) hm hmods,
    hinner (closeBrace :: (tail ++ r)) 0, scanAux_succ_close _ _ 0, htail r,
    prependScan_comp, prependScan_comp, prependScan_comp]
  congr 1
  simp

theorem joinAlternatives_none {a : List Char} (ha : PipeNeutral a) :
    scanFormat a pipeChar = none := by
  have := ha []
  rw [List.append_nil] at this
  unfold scanFormat
  rw [this]
  rfl

theorem joinAlternatives_found {a : List Char} (m : List Char) (ha : PipeNeutral a) :
    scanFormat (a ++ pipeChar :: m) pipeChar = some (a, pipeChar :: m) := by
  unfold scanFormat
  rw [ha (pipeChar :: m), scanAux_found]
  simp [prependScan]

theorem handleSelectSlice_join (alts : List (List Char)) (k : Nat)
    (hk : k < alts.length) (hN : ∀ a ∈ alts, PipeNeutral a) :
    handleSelectSlice k (joinAlternatives alts) = some (alts.get ⟨k, hk⟩) := by
  induction alts generalizing k with
  | nil => exact absurd hk (by simp)
  | cons a rest ih =>
    cases rest with
    | nil =>
      have hk0 : k = 0 := Nat.lt_one_iff.mp hk
      subst hk0
      have ha := hN a (by simp)
      simp only [joinAlternatives, handleSelectSlice, skipAlternatives,
        joinAlternatives_none ha]
      rfl
    | cons b rest2 =>
      have ha := hN a (by simp)
      have hfound := joinAlternatives_found (joinAlternatives (b :: rest2)) ha
      cases k with
      | zero =>
        simp only [joinAlternatives, handleSelectSlice, skipAlternatives, hfound]
        rfl
      | succ n =>
        have hk' : n < (b :: rest2).length := Nat.lt_of_succ_lt_succ hk
        have hrec := ih n hk' (fun x hx => hN x (by simp [hx]))
        simp only [joinAlternatives, handleSelectSlice, skipAlternatives, hfound]
        simp only [handleSelectSlice] at hrec
        exact hrec

/-- C8: formatting a `%select{a0|a1|...|am}N` clause whose integer
argument has value K (K below the number of alternatives) emits exactly
the K-th alternative (0-based), recursively formatted by
`FormatDiagnostic`; scanning for the `|` separators correctly skips
nested brace clauses and escaped characters inside the alternatives
(the `PipeNeutral` hypothesis). -/
theorem selectModifier_emits_kth (fuel : Nat) (args : List FmtArg)
    (alts : List (List Char)) (k : Nat) (hk : k < alts.length)
    (hN : ∀ a ∈ alts, PipeNeutral a) :
    handleSelectModifier fuel args k (joinAlternatives alts) =
      formatDiagnostic fuel args (alts.get ⟨k, hk⟩) := by
  unfold handleSelectModifier
  rw [handleSelectSlice_join alts k hk hN]

/-- `selectModifier_emits_kth` on the clause
`a|%.b|%select\x7bu|v\x7d0` with select value 2: the third alternative —
itself a select clause with a nested brace clause containing a `|`, next
to an escaped `.` in the second alternative — is emitted, recursively
formatted (the nested select picks `u` for argument value 0). -/
theorem selectModifier_emits_kth_witness :
    handleSelectModifier 9 [FmtArg.sint 0] 2
        (joinAlternatives
          [['a'], ['%', '.', 'b'],
           '%' :: 's' :: (['e', 'l', 'e', 'c', 't'] ++
             openBrace :: (['u', '|', 'v'] ++ closeBrace :: ['0']))]) =
      formatDiagnostic 9 [FmtArg.sint 0]
        ('%' :: 's' :: (['e', 'l', 'e', 'c', 't'] ++
          openBrace :: (['u', '|', 'v'] ++ closeBrace :: ['0']))) ∧
    formatDiagnostic 9 [FmtArg.sint 0]
        ('%' :: 's' :: (['e', 'l', 'e', 'c', 't'] ++
          openBrace :: (['u', '|', 'v'] ++ closeBrace :: ['0']))) =
      some ['u'] := by
  constructor
  · exact selectModifier_emits_kth 9 [FmtArg.sint 0]
      [['a'], ['%', '.', 'b'],
       '%' :: 's' :: (['e', 'l', 'e', 'c', 't'] ++
         openBrace :: (['u', '|', 'v'] ++ closeBrace :: ['0']))] 2 (by decide)
      (by
        intro a ha
        simp only [List.mem_cons, List.not_mem_nil, or_false] at ha
        rcases ha with rfl | rfl | rfl
        · exact pipeNeutral_cons (by decide) (by decide) pipeNeutral_nil
        · exact pipeNeutral_escape (by decide)
            (pipeNeutral_cons (by decide) (by decide) pipeNeutral_nil)
        · exact pipeNeutral_modifier ['e', 'l', 'e', 'c', 't'] ['u', '|', 'v'] ['0']
            (by decide) (by decide)
            (nzNeutral_cons (by decide) (by decide)
              (nzNeutral_cons (by decide) (by decide)
                (nzNeutral_cons (by decide) (by decide) nzNeutral_nil)))
            (pipeNeutral_cons (by decide) (by decide) pipeNeutral_nil))
  · decide

/-- `multiArgumentExpr_roundtrip` on a two-argument list (out-of-line
vector) and a one-argument list (inline representation). -/
theorem multiArgumentExpr_roundtrip_witness :
    ([3, 7] : List Nat) ≠ [] ∧
    (MultiArgumentExpr.make [3, 7]).getArguments = [3, 7] ∧
    (MultiArgumentExpr.make [5]).getArguments = [5] :=
  ⟨by decide, multiArgumentExpr_roundtrip [3, 7] (by decide),
    multiArgumentExpr_roundtrip [5] (by decide)⟩

end Flang
